/-
  Verification of the DynamicProxy repository (github.com/cavoq/DynamicProxy)
  against its natural-language specification.

  The development shallowly embeds the Go code of
    internal/config/config.go  (exception matching, list parsing, env defaulting)
    internal/proxy/proxy.go    (transport construction, request dispatch,
                               nested CONNECT handshake)
  as executable Lean functions.  Go standard-library routines that the code
  calls (strings.TrimSpace, strings.EqualFold, net.SplitHostPort, url.Parse,
  regexp.QuoteMeta, strconv.Atoi) are modelled faithfully for the inputs the
  program feeds them; where a model is restricted (ASCII case folding, the
  http/https scheme family of url.Parse) the restriction is noted at the
  definition.
-/
import Mathlib

namespace DynamicProxy

/-! ### Go string primitives -/

/-- Model of `unicode.IsSpace` on the Latin-1 range (the full Go predicate
also accepts higher Unicode space code points, which never occur in the
configuration strings this program handles). -/
def goIsSpace (c : Char) : Bool :=
  c = ' ' || c = '\t' || c = '\n' || c.toNat = 0x0B || c.toNat = 0x0C ||
  c = '\r' || c.toNat = 0x85 || c.toNat = 0xA0

/-- Model of `strings.TrimSpace`: drop leading and trailing space characters. -/
def goTrimSpace (s : String) : String :=
  String.mk (((s.data.dropWhile goIsSpace).reverse.dropWhile goIsSpace).reverse)

/-- Model of `strings.TrimSuffix s suf`. -/
def goTrimSuffix (s suf : String) : String :=
  if suf.data.isSuffixOf s.data then
    String.mk (s.data.take (s.data.length - suf.data.length))
  else s

/-- Model of `strings.HasPrefix s pre`. -/
def goStartsWith (s pre : String) : Bool :=
  s.data.take pre.data.length == pre.data

/-- ASCII simple case fold (`unicode.SimpleFold` restricted to ASCII letters;
all strings compared case-insensitively by this program are ASCII). -/
def goToLowerChar (c : Char) : Char :=
  if 'A' ≤ c ∧ c ≤ 'Z' then Char.ofNat (c.toNat + 32) else c

/-- Model of `strings.EqualFold` (exact on ASCII input). -/
def goEqualFold (s t : String) : Bool :=
  s.data.map goToLowerChar == t.data.map goToLowerChar

/-- Model of `strings.Contains s (String.singleton c)`. -/
def goContainsChar (s : String) (c : Char) : Bool :=
  s.data.contains c

/-- Split a character list at every occurrence of `sep`
(model of `strings.Split` with a one-character separator). -/
def splitOnChar (sep : Char) : List Char → List (List Char)
  | [] => [[]]
  | c :: rest =>
    let r := splitOnChar sep rest
    if c = sep then [] :: r
    else
      match r with
      | g :: gs => (c :: g) :: gs
      | [] => [[c]]

/-- Model of `strings.Split s ","`. -/
def goSplitComma (s : String) : List String :=
  (splitOnChar ',' s.data).map String.mk

/-- First index of `c` in `cs` (model of `strings.IndexByte`). -/
def charIndexOf (cs : List Char) (c : Char) : Option Nat :=
  cs.findIdx? (· = c)

/-- Last index of `c` in `cs` (model of Go's `last` helper in `net`
and of `strings.LastIndex` for one-character needles). -/
def charLastIndexOf (cs : List Char) (c : Char) : Option Nat :=
  match charIndexOf cs.reverse c with
  | none => none
  | some j => some (cs.length - 1 - j)

/-! ### Model of `net.SplitHostPort` -/

/-- Model of `net.SplitHostPort`: `none` stands for a non-nil error
(missing port, too many colons, stray brackets); `some (host, port)`
for a successful split. -/
def goSplitHostPort (hostport : String) : Option (String × String) :=
  let cs := hostport.data
  match charLastIndexOf cs ':' with
  | none => none
  | some i =>
    if cs.head? = some '[' then
      match charIndexOf cs ']' with
      | none => none
      | some e =>
        if e + 1 = cs.length then none
        else if e + 1 = i then
          if (cs.drop 1).contains '[' then none
          else if (cs.drop (e + 1)).contains ']' then none
          else some (String.mk ((cs.drop 1).take (e - 1)), String.mk (cs.drop (i + 1)))
        else none
    else
      let host := cs.take i
      if host.contains ':' then none
      else if cs.contains '[' then none
      else if cs.contains ']' then none
      else some (String.mk host, String.mk (cs.drop (i + 1)))

/-! ### Model of `net/url.Parse` for `http://` / `https://` URLs

`url.Parse` is called by this program only on strings carrying an explicit
`http://` or `https://` scheme (`GetExceptions` guards on that, and
`NewUpstreamTransport` prepends `"http://"`), so the model covers exactly
that family and rejects other schemes. -/

/-- A parsed URL; only the fields the program reads.  `tail` is the
unparsed `path?query#fragment` remainder after the authority. -/
structure GoURL where
  scheme : String
  host : String
  tail : String
deriving DecidableEq, Repr

/-- Control characters are rejected by `url.Parse` up front. -/
def isCtlChar (c : Char) : Bool :=
  c.toNat < 0x20 || c.toNat = 0x7F

/-- Model of `url.validOptionalPort`: empty, or `:` followed by decimal
digits only. -/
def validOptionalPort : List Char → Bool
  | [] => true
  | ':' :: rest => rest.all (fun c => '0' ≤ c ∧ c ≤ '9')
  | _ => false

def isHexDigitChar (c : Char) : Bool :=
  ('0' ≤ c ∧ c ≤ '9') || ('a' ≤ c ∧ c ≤ 'f') || ('A' ≤ c ∧ c ≤ 'F')

/-- Every `%` must begin a valid two-digit escape (the validity check of
`url.unescape`; the decoded bytes themselves are not needed, since the
program only compares hosts that contain no escapes). -/
def validEscapes : List Char → Bool
  | [] => true
  | '%' :: a :: b :: rest => isHexDigitChar a && isHexDigitChar b && validEscapes rest
  | '%' :: _ => false
  | _ :: rest => validEscapes rest

/-- Model of `url.validUserinfo`. -/
def validUserinfoChar (c : Char) : Bool :=
  ('A' ≤ c ∧ c ≤ 'Z') || ('a' ≤ c ∧ c ≤ 'z') || ('0' ≤ c ∧ c ≤ '9') ||
  c ∈ ['-', '.', '_', ':', '~', '!', '$', '&', '\'', '(', ')', '*', '+',
       ',', ';', '=', '%', '@']

/-- Model of `url.parseHost`: bracketed hosts need a closing `]` followed by
a valid optional port; otherwise everything from the last `:` on must be a
valid optional port; `%`-escapes must be well formed.  The host is returned
as written (no escapes occur in this program's inputs). -/
def parseHostPart (host : List Char) : Option (List Char) :=
  if host.head? = some '[' then
    match charLastIndexOf host ']' with
    | none => none
    | some i =>
      if validOptionalPort (host.drop (i + 1)) && validEscapes host then some host
      else none
  else
    match charLastIndexOf host ':' with
    | none => if validEscapes host then some host else none
    | some i =>
      if validOptionalPort (host.drop i) && validEscapes host then some host
      else none

/-- Split the authority at its last `@` into userinfo and host, as
`url.parseAuthority` does.  `none` in the first component: no userinfo. -/
def splitUserinfo (auth : List Char) : Option (List Char) × List Char :=
  match charLastIndexOf auth '@' with
  | none => (none, auth)
  | some i => (some (auth.take i), auth.drop (i + 1))

/-- Model of `url.Parse` on the `http://`/`https://` family: `none` models
a non-nil error. -/
def goURLParse (raw : String) : Option GoURL :=
  let cs := raw.data
  if cs.any isCtlChar then none
  else
    let parsed :=
      if goStartsWith raw "http://" then some ("http", cs.drop 7)
      else if goStartsWith raw "https://" then some ("https", cs.drop 8)
      else none
    match parsed with
    | none => none
    | some (scheme, rest) =>
      let authority := rest.takeWhile (fun c => c ≠ '/' ∧ c ≠ '?' ∧ c ≠ '#')
      let tail := rest.drop authority.length
      match splitUserinfo authority with
      | (userinfo, hostPart) =>
        if userinfo.elim true (fun u => u.all validUserinfoChar) then
          match parseHostPart hostPart with
          | none => none
          | some h => some { scheme := scheme, host := String.mk h, tail := String.mk tail }
        else none

/-! ### internal/config/config.go — exception matching -/

/-- Embedding of `config.normalizeHostToken`: trim, and unwrap a bracketed
IPv6 literal `[x]` to `x`. -/
def normalizeHostToken (token : String) : String :=
  let token := goTrimSpace token
  let cs := token.data
  if cs.head? = some '[' ∧ cs.getLast? = some ']' ∧ 2 < cs.length then
    String.mk ((cs.drop 1).take (cs.length - 2))
  else token

/-- Embedding of `config.splitOutPort`: the port-stripped host and whether a
port was split off. -/
def splitOutPort (host : String) : String × Bool :=
  match goSplitHostPort host with
  | none => (host, false)
  | some (h, _) => (h, true)

/-- Embedding of `config.buildHostCandidates`: the literal (trimmed) host,
plus its port-stripped form when that differs (case-insensitively). -/
def buildHostCandidates (host : String) : List String :=
  let host := goTrimSpace host
  if host = "" then []
  else
    let (withoutPort, ok) := splitOutPort host
    if ok && !goEqualFold withoutPort host then [host, withoutPort]
    else [host]

/-- The characters `regexp.QuoteMeta` escapes. -/
def goRegexSpecial (c : Char) : Bool :=
  c ∈ ['\\', '.', '+', '*', '?', '(', ')', '|', '[', ']', '{', '}', '^', '$']

/-- Model of `regexp.QuoteMeta` on character lists. -/
def quoteMetaChars : List Char → List Char
  | [] => []
  | c :: cs =>
    if goRegexSpecial c then '\\' :: c :: quoteMetaChars cs
    else c :: quoteMetaChars cs

/-- Model of `regexp.QuoteMeta`. -/
def goQuoteMeta (s : String) : String :=
  String.mk (quoteMetaChars s.data)

/-- Left-to-right replacement of every occurrence of the two-character
needle `\*` by `.*` (model of `strings.ReplaceAll re "\\*" ".*"`). -/
def replaceEscStarChars : List Char → List Char
  | '\\' :: '*' :: rest => '.' :: '*' :: replaceEscStarChars rest
  | c :: rest => c :: replaceEscStarChars rest
  | [] => []

def goReplaceEscStar (s : String) : String :=
  String.mk (replaceEscStarChars s.data)

/-- Embedding of `config.wildcardPatternToRegex`:
`"(?i)^" + ReplaceAll(QuoteMeta(pattern), "\*", ".*") + "$"`. -/
def wildcardPatternToRegex (pattern : String) : String :=
  "(?i)^" ++ goReplaceEscStar (goQuoteMeta pattern) ++ "$"

/-- Atoms of the regular expressions `wildcardPatternToRegex` produces:
a literal character, or `.*` (any character sequence). -/
inductive RegexTok where
  | lit (c : Char)
  | anyseq
deriving DecidableEq, Repr

/-- Raw occurrences of these characters make the body fall outside the
QuoteMeta-generated family (a dangling `\`, a quantifier with no atom, a
group or class opener, …); compilation of such a body is not modelled and
conservatively fails. -/
def rejectedRawChar (c : Char) : Bool :=
  c ∈ ['\\', '*', '$', '.', '(', ')', '[', ']', '{', '}', '+', '?', '|', '^']

/-- Compile the body of a produced regex (everything between `(?i)^` and the
final `$`, the terminating `$` included in the input): escaped characters
are literals, `.*` is an any-sequence atom.  `none` models a
`regexp.Compile` error (and is also returned for syntactically valid Go
regexes outside the family this program generates). -/
def compileBody : List Char → Option (List RegexTok)
  | [] => none
  | ['$'] => some []
  | '\\' :: c :: rest => (compileBody rest).map (RegexTok.lit c :: ·)
  | '.' :: '*' :: rest => (compileBody rest).map (RegexTok.anyseq :: ·)
  | c :: rest =>
    if rejectedRawChar c then none
    else (compileBody rest).map (RegexTok.lit c :: ·)

/-- Model of `regexp.Compile` on the strings this program builds: requires
the `(?i)^ … $` frame and compiles the body. -/
def compileRegex (re : String) : Option (List RegexTok) :=
  match re.data with
  | '(' :: '?' :: 'i' :: ')' :: '^' :: rest => compileBody rest
  | _ => none

/-- Try `f` on the input and on every suffix reachable by consuming
non-newline characters (Go's `.` does not match a newline, so `.*` may
only skip over characters other than `\n`). -/
def anySuffixNoNL (f : List Char → Bool) : List Char → Bool
  | [] => f []
  | d :: ds => f (d :: ds) || (d ≠ '\n' && anySuffixNoNL f ds)

/-- Anchored, case-insensitive matching of a compiled token list against a
candidate: the semantics of the produced `(?i)^ … $` regexes. -/
def tokensMatch : List RegexTok → List Char → Bool
  | [] => fun cs => cs.isEmpty
  | RegexTok.lit c :: ts => fun cs =>
    match cs with
    | [] => false
    | d :: ds => (goToLowerChar c = goToLowerChar d) && tokensMatch ts ds
  | RegexTok.anyseq :: ts => fun cs => anySuffixNoNL (tokensMatch ts) cs

/-- Model of `regexp.MatchString`: `none` models a compile error. -/
def goRegexpMatchString (re s : String) : Option Bool :=
  (compileRegex re).map (fun toks => tokensMatch toks s.data)

/-- Embedding of `config.IsException`. -/
def IsException (host : String) (exceptions : List String) : Bool :=
  let hostCandidates := buildHostCandidates host
  if hostCandidates.length = 0 then false
  else
    exceptions.any fun pat =>
      let pattern := goTrimSpace (goTrimSuffix pat "/")
      if pattern = "" then false
      else if goContainsChar pattern '*' then
        let regex := wildcardPatternToRegex pattern
        hostCandidates.any fun candidate =>
          match goRegexpMatchString regex candidate with
          | some matched => matched
          | none => false
      else
        let normalizedPattern := normalizeHostToken pattern
        hostCandidates.any fun candidate =>
          goEqualFold (normalizeHostToken candidate) normalizedPattern

/-! ### internal/config/config.go — list parsing and env defaulting -/

/-- Embedding of `config.GetExceptions`: split on `,`, trim, drop empties,
replace an `http://`/`https://` entry by its URL host when it parses and
has a non-empty host, strip one trailing `/`. -/
def GetExceptions (s : String) : List String :=
  if s = "" then []
  else
    (goSplitComma s).filterMap fun part =>
      let p := goTrimSpace part
      if p = "" then none
      else
        let p :=
          if goStartsWith p "http://" || goStartsWith p "https://" then
            match goURLParse p with
            | some u => if u.host ≠ "" then u.host else p
            | none => p
          else p
        some (goTrimSuffix p "/")

/-- Embedding of `config.GetEnvDuration`.  `env` models the
`os.LookupEnv` result; `parseDuration` abstracts `time.ParseDuration`
(duration in nanoseconds as `Int`, `none` modelling a parse error). -/
def GetEnvDurationWith (parseDuration : String → Option Int)
    (env : Option String) (defaultVal : Int) : Int :=
  match env with
  | none => defaultVal
  | some val =>
    if goTrimSpace val = "" then defaultVal
    else
      match parseDuration val with
      | none => defaultVal
      | some parsed => if parsed ≤ 0 then defaultVal else parsed

/-- Model of `strconv.Atoi`: optional sign, decimal digits only, 64-bit
range check (`none` models a non-nil error). -/
def goAtoi (s : String) : Option Int :=
  let signed : Bool × List Char :=
    match s.data with
    | '+' :: rest => (false, rest)
    | '-' :: rest => (true, rest)
    | cs => (false, cs)
  match signed with
  | (neg, ds) =>
    if ds.isEmpty || !(ds.all fun c => '0' ≤ c ∧ c ≤ '9') then none
    else
      let n : Nat := ds.foldl (fun a c => a * 10 + (c.toNat - 48)) 0
      let v : Int := if neg then -(n : Int) else (n : Int)
      if v < -(2 ^ 63) || (2 ^ 63 - 1) < v then none else some v

/-- Embedding of `config.GetEnvInt` (with `strconv.Atoi` modelled by
`goAtoi`). -/
def GetEnvInt (env : Option String) (defaultVal : Int) : Int :=
  match env with
  | none => defaultVal
  | some val =>
    if goTrimSpace val = "" then defaultVal
    else
      match goAtoi val with
      | none => defaultVal
      | some parsed => if parsed ≤ 0 then defaultVal else parsed

/-! ### internal/proxy/proxy.go — transports and request dispatch -/

/-- The configuration fields `internal/proxy` reads (`config.Config`).
Durations are nanosecond counts, as Go's `time.Duration` is. -/
structure Config where
  UpstreamProxy : String
  ProxyExceptions : List String
  ListenAddr : String
  ProxyAuth : String
  ClientRequestTimeout : Int
  TransportDialTimeout : Int
  TransportKeepAlive : Int
  TransportTLSHandshakeTimeout : Int
  TransportResponseHeaderTimeout : Int
  TransportExpectContinueTimeout : Int
  TransportIdleConnTimeout : Int
  TunnelConnectReadWriteTimeout : Int
deriving DecidableEq, Repr

/-- An `http.Transport` value as `proxy.newTransport` builds it.
`tlsNextProtoEmpty` records whether `TLSNextProto` has been set to an empty
map (which disables HTTP/2 protocol negotiation). -/
structure GoTransport where
  proxyURL : Option GoURL
  dialTimeout : Int
  keepAlive : Int
  tlsHandshakeTimeout : Int
  responseHeaderTimeout : Int
  expectContinueTimeout : Int
  idleConnTimeout : Int
  maxIdleConns : Nat
  maxIdleConnsPerHost : Nat
  tlsNextProtoEmpty : Bool
deriving DecidableEq, Repr

/-- The `http.RoundTripper` values this program produces: a plain
`*http.Transport`, or an `ntlmssp.Negotiator` wrapping one. -/
inductive RoundTripper where
  | transport (tr : GoTransport)
  | ntlmNegotiator (base : GoTransport)
deriving DecidableEq, Repr

/-- Embedding of `proxy.newTransport`. -/
def newTransport (cfg : Config) (proxyURL : Option GoURL) : GoTransport :=
  { proxyURL := proxyURL
    dialTimeout := cfg.TransportDialTimeout
    keepAlive := cfg.TransportKeepAlive
    tlsHandshakeTimeout := cfg.TransportTLSHandshakeTimeout
    responseHeaderTimeout := cfg.TransportResponseHeaderTimeout
    expectContinueTimeout := cfg.TransportExpectContinueTimeout
    idleConnTimeout := cfg.TransportIdleConnTimeout
    maxIdleConns := 100
    maxIdleConnsPerHost := 10
    tlsNextProtoEmpty := false }

/-- Embedding of `proxy.NewDirectTransport`: no proxy URL bound. -/
def NewDirectTransport (cfg : Config) : RoundTripper :=
  RoundTripper.transport (newTransport cfg none)

/-- Embedding of `proxy.NewUpstreamTransport`: parse
`"http://" + cfg.UpstreamProxy`; on error fall back to the direct
transport; otherwise bind the proxy URL, and when `ProxyAuth` equals
`"ntlm"` case-insensitively, empty out `TLSNextProto` and wrap the
transport in an `ntlmssp.Negotiator`. -/
def NewUpstreamTransport (cfg : Config) : RoundTripper :=
  match goURLParse ("http://" ++ cfg.UpstreamProxy) with
  | none => NewDirectTransport cfg
  | some proxyURL =>
    let base := newTransport cfg (some proxyURL)
    if goEqualFold cfg.ProxyAuth "ntlm" then
      RoundTripper.ntlmNegotiator { base with tlsNextProtoEmpty := true }
    else
      RoundTripper.transport base

/-- Embedding of `proxy.Bypass`. -/
def Bypass (host : String) (exceptions : List String) : Bool :=
  IsException host exceptions

/-- Embedding of the `requestTransports` pair. -/
structure requestTransports where
  direct : RoundTripper
  upstream : RoundTripper
deriving DecidableEq, Repr

/-- The transport construction `proxy.Start` performs once, before the
server's handler closure is installed. -/
def startTransports (cfg : Config) : requestTransports :=
  { direct := NewDirectTransport cfg, upstream := NewUpstreamTransport cfg }

/-- An inbound request, reduced to the fields the dispatch logic reads. -/
structure Request where
  method : String
  host : String
deriving DecidableEq, Repr

/-- The transport selection of `proxy.handleHttpWithTransports`. -/
def selectTransport (cfg : Config) (transports : requestTransports)
    (host : String) : RoundTripper :=
  if Bypass host cfg.ProxyExceptions then transports.direct
  else transports.upstream

/-- Embedding of `proxy.handleRequestWithTransports`, observed through the
round-trip transport it hands to `ProxyRequest`: CONNECT requests take the
tunnel path (`HandleHttps`), which performs raw dials and uses no
round-trip transport (`none`); every other request uses one member of the
given transport pair. -/
def handleRequestWithTransports (cfg : Config) (transports : requestTransports)
    (req : Request) : Option RoundTripper :=
  if req.method = "CONNECT" then none
  else some (selectTransport cfg transports req.host)

/-- The request loop of the server `proxy.Start` installs: the transport
pair is built once, and the handler closure reuses it for every request. -/
def serverRun (cfg : Config) (reqs : List Request) : List (Option RoundTripper) :=
  let transports := startTransports cfg
  reqs.map (handleRequestWithTransports cfg transports)

/-! ### internal/proxy/proxy.go — the nested CONNECT handshake -/

/-- The observable outcomes of the I/O operations `DialViaUpstream`
performs on the upstream connection, in program order: the TCP dial, the
deadline set, the CONNECT write, the response read
(`some status` = a response parsed by `http.ReadResponse` with that status
code, `none` = a read/parse error), and the deadline clear. -/
structure UpstreamWire where
  dialOk : Bool
  setDeadlineOk : Bool
  writeOk : Bool
  response : Option Nat
  clearDeadlineOk : Bool
deriving DecidableEq, Repr

/-- The error cases of `proxy.DialViaUpstream`, one per `return nil, err`
site. -/
inductive DialErr where
  | upstreamDialFailed
  | deadlineSetFailed
  | sendConnectFailed
  | badConnectResponse
  | connectRejected (status : Nat)
  | deadlineClearFailed
deriving DecidableEq, Repr

deriving instance DecidableEq for Except

/-- What `proxy.DialViaUpstream` did: its return value (`Except.ok ()`
models returning the live connection, `Except.error e` the `nil, err`
returns), whether the upstream connection was closed, and the byte strings
passed to `conn.Write`, in order. -/
structure DialOutcome where
  result : Except DialErr Unit
  connClosed : Bool
  written : List String
deriving DecidableEq, Repr

/-- The exact CONNECT request bytes `DialViaUpstream` formats. -/
def connectRequestBytes (target : String) : String :=
  "CONNECT " ++ target ++ " HTTP/1.1\r\nHost: " ++ target ++ "\r\n\r\n"

/-- Embedding of `proxy.DialViaUpstream proxyAddr target cfg`, following
the source's control flow step by step over the wire outcomes.
`proxyAddr` only feeds the TCP dial, whose outcome `wire.dialOk` models. -/
def DialViaUpstream (proxyAddr target : String) (wire : UpstreamWire) : DialOutcome :=
  if !wire.dialOk then
    { result := .error .upstreamDialFailed, connClosed := false, written := [] }
  else if !wire.setDeadlineOk then
    { result := .error .deadlineSetFailed, connClosed := true, written := [] }
  else if !wire.writeOk then
    { result := .error .sendConnectFailed, connClosed := true
      written := [connectRequestBytes target] }
  else
    match wire.response with
    | none =>
      { result := .error .badConnectResponse, connClosed := true
        written := [connectRequestBytes target] }
    | some status =>
      if status ≠ 200 then
        { result := .error (.connectRejected status), connClosed := true
          written := [connectRequestBytes target] }
      else if !wire.clearDeadlineOk then
        { result := .error .deadlineClearFailed, connClosed := true
          written := [connectRequestBytes target] }
      else
        { result := .ok (), connClosed := false
          written := [connectRequestBytes target] }

/-! ### Theorems for the claims -/

/-- C3: exact (non-wildcard) exception matching is case-insensitive and
tests both the literal destination and its port-stripped form:
`isBypassed("Example.com", ["example.com"])` is true,
`isBypassed("example.com:8080", ["example.com"])` is true, and
`isBypassed("example.com", ["example.com:9090"])` is false. -/
theorem isException_exact_match_cases :
    IsException "Example.com" ["example.com"] = true ∧
    IsException "example.com:8080" ["example.com"] = true ∧
    IsException "example.com" ["example.com:9090"] = false := by
  decide

/-- C4: a wildcard exception pattern is compiled to an anchored,
case-insensitive matcher with `*` standing for any character sequence:
`*.example.com` matches `api.example.com` and `API.EXAMPLE.COM` but not
the apex host `example.com`. -/
theorem isException_wildcard_match_cases :
    IsException "api.example.com" ["*.example.com"] = true ∧
    IsException "API.EXAMPLE.COM" ["*.example.com"] = true ∧
    IsException "example.com" ["*.example.com"] = false := by
  decide

/-- C5: bracketed IPv6 literals are unwrapped for exact-match comparison,
so the exception pattern `[::1]` (and equally `::1`) matches the
destination `[::1]:8443`. -/
theorem isException_ipv6_bracket_normalization :
    IsException "[::1]:8443" ["[::1]"] = true ∧
    IsException "[::1]:8443" ["::1"] = true := by
  decide

/-- C9: parsing the exception-list string
`"http://localhost, *.example.com, api.svc.com, https://www.test.org/"`
yields exactly `["localhost", "*.example.com", "api.svc.com",
"www.test.org"]` — schemes replaced by the URL host, trailing slash
stripped, whitespace trimmed, empties dropped, order preserved. -/
theorem getExceptions_parse_example :
    GetExceptions "http://localhost, *.example.com, api.svc.com, https://www.test.org/" =
      ["localhost", "*.example.com", "api.svc.com", "www.test.org"] := by
  decide

/-- C1 counterexample: with an empty `upstreamProxyAddress`,
`url.Parse "http://"` succeeds (host `""`), so `NewUpstreamTransport`
returns a transport with a proxy URL bound — not the direct transport the
claim promises.  The last conjunct records that the result differs from
the direct transport. -/
theorem newUpstreamTransport_empty_address_binds_proxy_url :
    NewUpstreamTransport ⟨"", [], ":8080", "", 60, 10, 30, 10, 30, 1, 90, 15⟩ =
      RoundTripper.transport
        (newTransport ⟨"", [], ":8080", "", 60, 10, 30, 10, 30, 1, 90, 15⟩
          (some ⟨"http", "", ""⟩)) ∧
    decide (NewUpstreamTransport ⟨"", [], ":8080", "", 60, 10, 30, 10, 30, 1, 90, 15⟩ =
      NewDirectTransport ⟨"", [], ":8080", "", 60, 10, 30, 10, 30, 1, 90, 15⟩) = false := by
  decide

/-- C1 amended: `NewUpstreamTransport` falls back to the direct transport
exactly when `http://<upstreamProxyAddress>` fails to parse as a URL; an
empty address parses successfully (as `http://` with empty host), so it
does not fall back — the upstream transport is then bound to a proxy URL
with empty host. -/
theorem newUpstreamTransport_fallback_iff_parse_fails (cfg : Config) :
    (goURLParse ("http://" ++ cfg.UpstreamProxy) = none →
      NewUpstreamTransport cfg = NewDirectTransport cfg) ∧
    (∀ u, goURLParse ("http://" ++ cfg.UpstreamProxy) = some u →
      (goEqualFold cfg.ProxyAuth "ntlm" = false →
        NewUpstreamTransport cfg = RoundTripper.transport (newTransport cfg (some u))) ∧
      (goEqualFold cfg.ProxyAuth "ntlm" = true →
        NewUpstreamTransport cfg =
          RoundTripper.ntlmNegotiator
            { newTransport cfg (some u) with tlsNextProtoEmpty := true })) := by
  refine ⟨fun h => ?_, fun u h => ⟨fun hauth => ?_, fun hauth => ?_⟩⟩
  · simp [NewUpstreamTransport, h]
  · simp [NewUpstreamTransport, h, hauth]
  · simp [NewUpstreamTransport, h, hauth]

/-- C1 amended, witness: the unparsable address `up:port` (invalid port
text) makes `NewUpstreamTransport` return the direct transport. -/
theorem newUpstreamTransport_fallback_witness :
    NewUpstreamTransport ⟨"up:port", [], ":8080", "", 60, 10, 30, 10, 30, 1, 90, 15⟩ =
      NewDirectTransport ⟨"up:port", [], ":8080", "", 60, 10, 30, 10, 30, 1, 90, 15⟩ :=
  (newUpstreamTransport_fallback_iff_parse_fails
    ⟨"up:port", [], ":8080", "", 60, 10, 30, 10, 30, 1, 90, 15⟩).1 (by decide)

/-- C6: once the upstream connection is dialled and its deadline set,
`DialViaUpstream` writes exactly
`CONNECT <target> HTTP/1.1\r\nHost: <target>\r\n\r\n` (and nothing else),
returns the connected socket exactly when the write succeeded and the
parsed response status is 200, and on every failure path — write error,
unparsable response, or a non-200 status — closes the upstream connection
and returns an error.  Deadline management is assumed healthy
(`setDeadlineOk`, `clearDeadlineOk`): in the source a failing
`SetDeadline` also closes the connection and errors out. -/
theorem dialViaUpstream_wire_contract (proxyAddr target : String)
    (wire : UpstreamWire) (hdial : wire.dialOk = true)
    (hset : wire.setDeadlineOk = true) (hclear : wire.clearDeadlineOk = true) :
    (DialViaUpstream proxyAddr target wire).written = [connectRequestBytes target] ∧
    ((DialViaUpstream proxyAddr target wire).result = Except.ok () ↔
      wire.writeOk = true ∧ wire.response = some 200) ∧
    (∀ e, (DialViaUpstream proxyAddr target wire).result = Except.error e →
      (DialViaUpstream proxyAddr target wire).connClosed = true) := by
  obtain ⟨dialOk, setOk, writeOk, response, clearOk⟩ := wire
  simp only at hdial hset hclear
  subst hdial hset hclear
  cases writeOk with
  | false => simp [DialViaUpstream]
  | true =>
    cases response with
    | none => simp [DialViaUpstream]
    | some status =>
      by_cases h200 : status = 200
      · subst h200; simp [DialViaUpstream]
      · simp [DialViaUpstream, h200]

/-- C6 witness: a healthy wire with a 200 response at a concrete target. -/
theorem dialViaUpstream_wire_contract_witness :
    (DialViaUpstream "corp.proxy:3128" "internal.host:443"
        ⟨true, true, true, some 200, true⟩).written =
      [connectRequestBytes "internal.host:443"] ∧
    ((DialViaUpstream "corp.proxy:3128" "internal.host:443"
        ⟨true, true, true, some 200, true⟩).result = Except.ok () ↔
      (true : Bool) = true ∧ (some 200 : Option Nat) = some 200) ∧
    (∀ e, (DialViaUpstream "corp.proxy:3128" "internal.host:443"
        ⟨true, true, true, some 200, true⟩).result = Except.error e →
      (DialViaUpstream "corp.proxy:3128" "internal.host:443"
        ⟨true, true, true, some 200, true⟩).connClosed = true) :=
  dialViaUpstream_wire_contract "corp.proxy:3128" "internal.host:443"
    ⟨true, true, true, some 200, true⟩ rfl rfl rfl

/-- C7: when the upstream address parses, the upstream transport is
NTLM-wrapped with HTTP/2 negotiation disabled exactly when `authScheme`
equals `ntlm` case-insensitively; any other scheme yields the plain
upstream transport, unwrapped and with HTTP/2 left enabled, and the
direct transport is never affected. -/
theorem newUpstreamTransport_ntlm_iff (cfg : Config) (u : GoURL)
    (hparse : goURLParse ("http://" ++ cfg.UpstreamProxy) = some u) :
    (goEqualFold cfg.ProxyAuth "ntlm" = true →
      NewUpstreamTransport cfg =
        RoundTripper.ntlmNegotiator
          { newTransport cfg (some u) with tlsNextProtoEmpty := true }) ∧
    (goEqualFold cfg.ProxyAuth "ntlm" = false →
      NewUpstreamTransport cfg = RoundTripper.transport (newTransport cfg (some u)) ∧
      (newTransport cfg (some u)).tlsNextProtoEmpty = false) ∧
    NewDirectTransport cfg = RoundTripper.transport (newTransport cfg none) ∧
    (newTransport cfg none).tlsNextProtoEmpty = false := by
  refine ⟨fun hauth => ?_, fun hauth => ?_, rfl, rfl⟩
  · simp [NewUpstreamTransport, hparse, hauth]
  · simp [NewUpstreamTransport, newTransport, hparse, hauth]

/-- C7 witness: `PROXY_AUTH=NTLM` (upper case) at a parsable upstream
address wraps the transport and disables HTTP/2. -/
theorem newUpstreamTransport_ntlm_iff_witness :
    NewUpstreamTransport ⟨"corp.proxy:3128", [], ":8080", "NTLM", 60, 10, 30, 10, 30, 1, 90, 15⟩ =
      RoundTripper.ntlmNegotiator
        { newTransport ⟨"corp.proxy:3128", [], ":8080", "NTLM", 60, 10, 30, 10, 30, 1, 90, 15⟩
            (some ⟨"http", "corp.proxy:3128", ""⟩) with tlsNextProtoEmpty := true } :=
  (newUpstreamTransport_ntlm_iff
    ⟨"corp.proxy:3128", [], ":8080", "NTLM", 60, 10, 30, 10, 30, 1, 90, 15⟩
    ⟨"http", "corp.proxy:3128", ""⟩ (by decide)).1 (by decide)

/-- C8: for duration and byte-count settings, an override that is missing,
blank, unparsable, or non-positive leaves the default in effect, and a
valid positive override takes effect exactly as given — for
`GetEnvDuration` (over any duration parser) and for `GetEnvInt` (with
`strconv.Atoi`). -/
theorem getEnv_override_defaulting (parse : String → Option Int) (d : Int) :
    (GetEnvDurationWith parse none d = d ∧ GetEnvInt none d = d) ∧
    (∀ val, goTrimSpace val = "" →
      GetEnvDurationWith parse (some val) d = d ∧ GetEnvInt (some val) d = d) ∧
    (∀ val, parse val = none → GetEnvDurationWith parse (some val) d = d) ∧
    (∀ val p, parse val = some p → p ≤ 0 →
      GetEnvDurationWith parse (some val) d = d) ∧
    (∀ val p, goTrimSpace val ≠ "" → parse val = some p → 0 < p →
      GetEnvDurationWith parse (some val) d = p) ∧
    (∀ val, goAtoi val = none → GetEnvInt (some val) d = d) ∧
    (∀ val p, goAtoi val = some p → p ≤ 0 → GetEnvInt (some val) d = d) ∧
    (∀ val p, goTrimSpace val ≠ "" → goAtoi val = some p → 0 < p →
      GetEnvInt (some val) d = p) := by
  refine ⟨⟨rfl, rfl⟩, fun val h => ?_, fun val h => ?_, fun val p h hp => ?_,
    fun val p hv h hp => ?_, fun val h => ?_, fun val p h hp => ?_,
    fun val p hv h hp => ?_⟩
  · exact ⟨by simp [GetEnvDurationWith, h], by simp [GetEnvInt, h]⟩
  · by_cases hv : goTrimSpace val = "" <;> simp [GetEnvDurationWith, hv, h]
  · by_cases hv : goTrimSpace val = "" <;>
      simp [GetEnvDurationWith, hv, h, hp]
  · simp [GetEnvDurationWith, hv, h, Int.not_le.mpr hp]
  · by_cases hv : goTrimSpace val = "" <;> simp [GetEnvInt, hv, h]
  · by_cases hv : goTrimSpace val = "" <;> simp [GetEnvInt, hv, h, hp]
  · simp [GetEnvInt, hv, h, Int.not_le.mpr hp]

/-- C8 witness: a valid positive integer override takes effect, and an
unparsable duration override falls back to the default. -/
theorem getEnv_override_defaulting_witness :
    GetEnvInt (some "42") 7 = 42 ∧
    GetEnvDurationWith (fun _ => none) (some "bogus") 9 = 9 := by
  constructor
  · exact (getEnv_override_defaulting (fun _ => none) 7).2.2.2.2.2.2.2 "42" 42
      (by decide) (by decide) (by decide)
  · exact (getEnv_override_defaulting (fun _ => none) 9).2.2.1 "bogus" rfl

/-- C2: under the server loop `Start` installs, the transport pair is
built once at startup and every non-CONNECT request is served with one of
those two values; no request constructs a new transport. -/
theorem serverRun_uses_startup_transports (cfg : Config) (reqs : List Request)
    (t : RoundTripper) (h : some t ∈ serverRun cfg reqs) :
    t = (startTransports cfg).direct ∨ t = (startTransports cfg).upstream := by
  unfold serverRun at h
  rw [List.mem_map] at h
  obtain ⟨req, _, hreq⟩ := h
  unfold handleRequestWithTransports at hreq
  by_cases hm : req.method = "CONNECT"
  · simp [hm] at hreq
  · simp only [hm, if_false, Option.some.injEq] at hreq
    unfold selectTransport at hreq
    by_cases hb : Bypass req.host cfg.ProxyExceptions
    · simp [hb] at hreq; exact Or.inl hreq.symm
    · simp [hb] at hreq; exact Or.inr hreq.symm

/-- C2 witness: a concrete two-request run; the second request's transport
is the startup-built upstream transport. -/
theorem serverRun_uses_startup_transports_witness :
    (NewUpstreamTransport ⟨"corp.proxy:3128", ["internal.local"], ":8080", "",
        60, 10, 30, 10, 30, 1, 90, 15⟩ =
      (startTransports ⟨"corp.proxy:3128", ["internal.local"], ":8080", "",
        60, 10, 30, 10, 30, 1, 90, 15⟩).direct) ∨
    (NewUpstreamTransport ⟨"corp.proxy:3128", ["internal.local"], ":8080", "",
        60, 10, 30, 10, 30, 1, 90, 15⟩ =
      (startTransports ⟨"corp.proxy:3128", ["internal.local"], ":8080", "",
        60, 10, 30, 10, 30, 1, 90, 15⟩).upstream) :=
  serverRun_uses_startup_transports
    ⟨"corp.proxy:3128", ["internal.local"], ":8080", "", 60, 10, 30, 10, 30, 1, 90, 15⟩
    [⟨"GET", "internal.local"⟩, ⟨"GET", "example.org"⟩]
    (NewUpstreamTransport ⟨"corp.proxy:3128", ["internal.local"], ":8080", "",
        60, 10, 30, 10, 30, 1, 90, 15⟩)
    (by decide)

/-! ### C10: the generated wildcard regexes always compile -/

/-- The token list the regex produced for a pattern denotes: `*` becomes
an any-sequence atom, every other character a literal. -/
def toksOfPattern : List Char → List RegexTok
  | [] => []
  | c :: cs =>
    if c = '*' then RegexTok.anyseq :: toksOfPattern cs
    else RegexTok.lit c :: toksOfPattern cs

lemma special_of_rejected {c : Char} (h : rejectedRawChar c = true) :
    goRegexSpecial c = true := by
  simp [rejectedRawChar] at h
  simp [goRegexSpecial]
  tauto

lemma quoteMetaChars_head_ne_star (cs : List Char) :
    (quoteMetaChars cs).head? ≠ some '*' := by
  cases cs with
  | nil => simp [quoteMetaChars]
  | cons d ds =>
    by_cases hd : goRegexSpecial d
    · simp [quoteMetaChars, hd]
    · have : d ≠ '*' := by
        intro he; subst he; simp [goRegexSpecial] at hd
      simp [quoteMetaChars, hd, this]

lemma replaceEscStar_cons (c : Char) (X : List Char)
    (h : c = '\\' → X.head? ≠ some '*') :
    replaceEscStarChars (c :: X) = c :: replaceEscStarChars X := by
  by_cases hc : c = '\\'
  · subst hc
    cases X with
    | nil => rfl
    | cons x xs =>
      have hx : x ≠ '*' := by
        intro he; exact (h rfl) (by simp [he])
      simp [replaceEscStarChars, hx]
  · cases X with
    | nil => simp [replaceEscStarChars, hc]
    | cons x xs => simp [replaceEscStarChars, hc]

lemma compileBody_replace_quote (cs : List Char) :
    compileBody (replaceEscStarChars (quoteMetaChars cs) ++ ['$']) =
      some (toksOfPattern cs) := by
  induction cs with
  | nil => rfl
  | cons c cs ih =>
    by_cases hstar : c = '*'
    · subst hstar
      have hq : quoteMetaChars ('*' :: cs) = '\\' :: '*' :: quoteMetaChars cs := by
        simp [quoteMetaChars, goRegexSpecial]
      rw [hq]
      have hr : replaceEscStarChars ('\\' :: '*' :: quoteMetaChars cs) =
          '.' :: '*' :: replaceEscStarChars (quoteMetaChars cs) := by
        simp [replaceEscStarChars]
      rw [hr]
      simp [compileBody, toksOfPattern, ih]
    · by_cases hspec : goRegexSpecial c = true
      · have hq : quoteMetaChars (c :: cs) = '\\' :: c :: quoteMetaChars cs := by
          simp [quoteMetaChars, hspec]
        rw [hq]
        have h1 : replaceEscStarChars ('\\' :: c :: quoteMetaChars cs) =
            '\\' :: replaceEscStarChars (c :: quoteMetaChars cs) :=
          replaceEscStar_cons '\\' (c :: quoteMetaChars cs) (fun _ => by simp [hstar])
        have h2 : replaceEscStarChars (c :: quoteMetaChars cs) =
            c :: replaceEscStarChars (quoteMetaChars cs) :=
          replaceEscStar_cons c (quoteMetaChars cs)
            (fun _ => quoteMetaChars_head_ne_star cs)
        rw [h1, h2]
        simp [compileBody, toksOfPattern, hstar, ih]
      · have hq : quoteMetaChars (c :: cs) = c :: quoteMetaChars cs := by
          simp [quoteMetaChars, hspec]
        rw [hq]
        have h2 : replaceEscStarChars (c :: quoteMetaChars cs) =
            c :: replaceEscStarChars (quoteMetaChars cs) :=
          replaceEscStar_cons c (quoteMetaChars cs)
            (fun hc => absurd (by subst hc; rfl) hspec)
        rw [h2]
        have hbs : c ≠ '\\' := fun hc => hspec (by subst hc; rfl)
        have hdol : c ≠ '$' := fun hc => hspec (by subst hc; rfl)
        have hdot : c ≠ '.' := fun hc => hspec (by subst hc; rfl)
        have hrej : rejectedRawChar c = false := by
          cases hrw : rejectedRawChar c with
          | false => rfl
          | true => exact absurd (special_of_rejected hrw) hspec
        cases hR : replaceEscStarChars (quoteMetaChars cs) with
        | nil =>
          rw [hR] at ih
          simp only [List.nil_append] at ih
          have hts : toksOfPattern cs = [] := by
            have h0 : some ([] : List RegexTok) = some (toksOfPattern cs) := by
              rw [← ih]; rfl
            simpa using h0.symm
          simp [compileBody, toksOfPattern, hstar, hbs, hdol, hdot, hrej, hts]
        | cons r rs =>
          rw [hR] at ih
          simp [compileBody, toksOfPattern, hstar, hbs, hdol, hdot, hrej]
          exact ih

/-- C10: because every wildcard pattern is quoted with `regexp.QuoteMeta`
before `\*` is replaced by `.*`, the regular expression
`wildcardPatternToRegex` generates always compiles — to the token list
`toksOfPattern` — and `regexp.MatchString` therefore returns a result
(never a compile error) for every pattern and every candidate, so
`IsException` (a total function here by construction) never skips a
pattern through its error branch. -/
theorem wildcard_regex_always_compiles (pattern : String) :
    compileRegex (wildcardPatternToRegex pattern) = some (toksOfPattern pattern.data) ∧
    ∀ candidate, goRegexpMatchString (wildcardPatternToRegex pattern) candidate =
      some (tokensMatch (toksOfPattern pattern.data) candidate.data) := by
  have hdata : (wildcardPatternToRegex pattern).data =
      '(' :: '?' :: 'i' :: ')' :: '^' ::
        (replaceEscStarChars (quoteMetaChars pattern.data) ++ ['$']) := by
    simp [wildcardPatternToRegex, goReplaceEscStar, goQuoteMeta, String.data_append]
  have hc : compileRegex (wildcardPatternToRegex pattern) =
      some (toksOfPattern pattern.data) := by
    unfold compileRegex
    rw [hdata]
    exact compileBody_replace_quote pattern.data
  exact ⟨hc, fun candidate => by simp [goRegexpMatchString, hc]⟩

end DynamicProxy
